import Mathlib

/-!
Shallow embedding of the analytics core of the `imessage-wrapped` repository
(files `src/analysis/people.py`, `src/analysis/health.py`,
`src/analysis/temporal.py`, `src/analysis/content.py`, `src/config.py`).

Conventions of the embedding:
* A dataframe row (one message) is a `Msg`.  The derived pandas columns
  `year` and `date` (computed in `src/extract.py` from `datetime`) are carried
  as fields; `datetime` is modelled as a rational number of days since an
  arbitrary epoch, so `timedelta(days=k)` is the rational `k` and
  `total_seconds` of a difference of `d` days is `d * 86400`.
* Float arithmetic of the source is modelled by exact rational arithmetic;
  decimal literals (`0.1`, `0.3`) become the corresponding rationals.
  Python `round(x, 1)` (round-half-to-even) is `pyRound1`.
* `pandas.DataFrame.groupby(k)` over a column is modelled by iterating over
  the distinct values of the column (`uniques`) and filtering.
* `pandas.Series.shift(1)` inside a group is modelled by pairing every
  element with its optional predecessor (`withPrev`); comparisons against
  the shifted-in `NaN` follow pandas semantics (`x != NaN` is true,
  `NaN < c` and `NaN > c` are false), made explicit by `Option`.
* Python's stable `list.sort` / `sort_values` is the stable insertion sort
  `sortStable`.
-/

namespace IMessageWrapped

/- Batteries marks the rational-arithmetic primitives irreducible, which
blocks `decide` on concrete rational computations; restore the default
reducibility for this development. -/
attribute [local semireducible] Rat.mul Rat.add Rat.sub Rat.inv

/-- One row of the extracted message dataframe.  `t` is the `datetime`
column measured in (fractional) days; `year` and `date` are the derived
calendar columns (`date` as an absolute day ordinal). -/
structure Msg where
  contact : String
  t : ℚ
  isFromMe : Bool
  year : ℤ
  date : ℤ
deriving DecidableEq, Repr

/-! ### Generic list helpers used by the embedding -/

/-- `uniquesAux seen l`: the elements of `l` not in `seen`, first
occurrences only, in order of first appearance.  Models
`pandas.Series.unique` / the key set of a `groupby`. -/
def uniquesAux {α : Type} [DecidableEq α] : List α → List α → List α
  | _, [] => []
  | seen, c :: rest =>
    if c ∈ seen then uniquesAux seen rest else c :: uniquesAux (c :: seen) rest

/-- Distinct values of a list in order of first appearance. -/
def uniques {α : Type} [DecidableEq α] (l : List α) : List α := uniquesAux [] l

/-- Stable insertion for `sortStable`: `le x y = true` means `x` may be
placed before `y`. -/
def insStable {α : Type} (le : α → α → Bool) (x : α) : List α → List α
  | [] => [x]
  | y :: ys => if le x y then x :: y :: ys else y :: insStable le x ys

/-- Stable sort (model of Python's stable `list.sort` and of
`DataFrame.sort_values`): equal elements keep their original order when
`le` holds both ways. -/
def sortStable {α : Type} (le : α → α → Bool) : List α → List α
  | [] => []
  | x :: xs => insStable le x (sortStable le xs)

/-- Pair every element with its predecessor, the model of a grouped
`shift(1)`: the first element gets `none` (pandas `NaN`). -/
def withPrev {α : Type} (l : List α) : List (α × Option α) :=
  l.zip (none :: l.map some)

/-- Maximum of a list with a default for the empty list (the empty case
never arises on the grouped nonempty frames of the source). -/
def listMax {α : Type} [LinearOrder α] (d : α) : List α → α
  | [] => d
  | x :: xs => xs.foldl max x

/-- Minimum of a list with a default. -/
def listMin {α : Type} [LinearOrder α] (d : α) : List α → α
  | [] => d
  | x :: xs => xs.foldl min x

/-- Python `str.startswith`, modelled on the character list of the
string. -/
def strStartsWith (pre s : String) : Bool := pre.toList.isPrefixOf s.toList

/-- Round-half-to-even to an integer, the semantics of Python `round`. -/
def roundHalfEven (q : ℚ) : ℤ :=
  let f := ⌊q⌋
  if q - f < 1/2 then f
  else if 1/2 < q - f then f + 1
  else if f % 2 = 0 then f else f + 1

/-- Python `round(x, 1)`. -/
def pyRound1 (q : ℚ) : ℚ := (roundHalfEven (q * 10) : ℚ) / 10

/-- Ascending stable sort of rationals. -/
def sortQ (l : List ℚ) : List ℚ := sortStable (fun a b => decide (a ≤ b)) l

/-- `pandas.Series.median`: middle element of the sorted values, or the
mean of the two middle elements; `none` on an empty series. -/
def median (l : List ℚ) : Option ℚ :=
  let s := sortQ l
  if s.length = 0 then none
  else if s.length % 2 = 1 then s.get? (s.length / 2)
  else
    match s.get? (s.length / 2 - 1), s.get? (s.length / 2) with
    | some a, some b => some ((a + b) / 2)
    | _, _ => none

/-! ### Lemmas about the helpers -/

theorem mem_uniquesAux {α : Type} [DecidableEq α] (a : α) :
    ∀ (l seen : List α), a ∈ uniquesAux seen l ↔ a ∈ l ∧ a ∉ seen := by
  intro l
  induction l with
  | nil => intro seen; simp [uniquesAux]
  | cons c rest ih =>
    intro seen
    by_cases hc : c ∈ seen
    · rw [uniquesAux, if_pos hc, ih]
      constructor
      · rintro ⟨h1, h2⟩; exact ⟨List.mem_cons_of_mem _ h1, h2⟩
      · rintro ⟨h1, h2⟩
        rcases List.mem_cons.mp h1 with h | h
        · exact absurd (h ▸ hc) h2
        · exact ⟨h, h2⟩
    · rw [uniquesAux, if_neg hc]
      constructor
      · intro h
        rcases List.mem_cons.mp h with h | h
        · exact ⟨h ▸ List.mem_cons_self _ _, h ▸ hc⟩
        · rcases (ih _).mp h with ⟨h1, h2⟩
          refine ⟨List.mem_cons_of_mem _ h1, fun hs => h2 ?_⟩
          exact List.mem_cons_of_mem _ hs
      · rintro ⟨h1, h2⟩
        rcases List.mem_cons.mp h1 with h | h
        · exact h ▸ List.mem_cons_self _ _
        · by_cases hac : a = c
          · exact hac ▸ List.mem_cons_self _ _
          · exact List.mem_cons_of_mem _ ((ih _).mpr
              ⟨h, fun hs => (List.mem_cons.mp hs).elim hac h2⟩)

theorem mem_uniques {α : Type} [DecidableEq α] (a : α) (l : List α) :
    a ∈ uniques l ↔ a ∈ l := by
  rw [uniques, mem_uniquesAux]; simp

theorem nodup_uniquesAux {α : Type} [DecidableEq α] :
    ∀ (l seen : List α), (uniquesAux seen l).Nodup := by
  intro l
  induction l with
  | nil => intro seen; simp [uniquesAux]
  | cons c rest ih =>
    intro seen
    by_cases hc : c ∈ seen
    · rw [uniquesAux, if_pos hc]; exact ih seen
    · rw [uniquesAux, if_neg hc]
      refine List.nodup_cons.mpr ⟨fun hmem => ?_, ih _⟩
      exact ((mem_uniquesAux c rest (c :: seen)).mp hmem).2 (List.mem_cons_self _ _)

theorem nodup_uniques {α : Type} [DecidableEq α] (l : List α) :
    (uniques l).Nodup := nodup_uniquesAux l []

theorem perm_insStable {α : Type} (le : α → α → Bool) (x : α) :
    ∀ l : List α, List.Perm (insStable le x l) (x :: l) := by
  intro l
  induction l with
  | nil => simp [insStable]
  | cons y ys ih =>
    rw [insStable]
    by_cases h : le x y = true
    · rw [if_pos h]
    · rw [if_neg h]
      exact ((ih.cons y).trans (List.Perm.swap x y ys))

theorem perm_sortStable {α : Type} (le : α → α → Bool) :
    ∀ l : List α, List.Perm (sortStable le l) l := by
  intro l
  induction l with
  | nil => simp [sortStable]
  | cons x xs ih =>
    exact (perm_insStable le x (sortStable le xs)).trans (ih.cons x)

theorem mem_sortStable {α : Type} (le : α → α → Bool) (a : α) (l : List α) :
    a ∈ sortStable le l ↔ a ∈ l :=
  (perm_sortStable le l).mem_iff

theorem pairwise_insStable {α : Type} (le : α → α → Bool)
    (htrans : ∀ a b c, le a b = true → le b c = true → le a c = true)
    (htot : ∀ a b, le a b = false → le b a = true) (x : α) :
    ∀ l : List α, l.Pairwise (fun a b => le a b = true) →
      (insStable le x l).Pairwise (fun a b => le a b = true) := by
  intro l
  induction l with
  | nil => intro _; simp [insStable]
  | cons y ys ih =>
    intro hp
    rcases List.pairwise_cons.mp hp with ⟨hy, hys⟩
    rw [insStable]
    by_cases h : le x y = true
    · rw [if_pos h]
      refine List.pairwise_cons.mpr ⟨?_, hp⟩
      intro b hb
      rcases List.mem_cons.mp hb with rfl | hb
      · exact h
      · exact htrans x y b h (hy b hb)
    · rw [if_neg h]
      refine List.pairwise_cons.mpr ⟨?_, ih hys⟩
      intro b hb
      rcases List.mem_cons.mp ((perm_insStable le x ys).mem_iff.mp hb) with heq | hb
      · rw [heq]; exact htot x y (by simpa using h)
      · exact hy b hb

theorem pairwise_sortStable {α : Type} (le : α → α → Bool)
    (htrans : ∀ a b c, le a b = true → le b c = true → le a c = true)
    (htot : ∀ a b, le a b = false → le b a = true) :
    ∀ l : List α, (sortStable le l).Pairwise (fun a b => le a b = true) := by
  intro l
  induction l with
  | nil => simp [sortStable]
  | cons x xs ih => exact pairwise_insStable le htrans htot x _ ih

/-! ### Configuration constants (`src/config.py`) -/

def MIN_MESSAGES_FOR_TOP_CONTACT : ℕ := 10

def CONVERSATION_GAP_HOURS : ℚ := 4

def TOP_CONTACTS_COUNT : ℕ := 15

/-! ### `src/analysis/people.py` -/

/-- The rows of the dataframe belonging to one contact
(`df[df['contact_name'] == contact]`). -/
def msgsOf (df : List Msg) (c : String) : List Msg :=
  df.filter (fun m => decide (m.contact = c))

/-- Count of sent messages (`('is_from_me', 'sum')` with 0/1 values). -/
def sentCount (l : List Msg) : ℕ := (l.filter (fun m => m.isFromMe)).length

/-- One row of the `get_top_contacts_alltime` aggregation. -/
structure ContactStats where
  contact : String
  totalMessages : ℕ
  sent : ℕ
  received : ℕ
  yearsActive : ℕ
  firstMessage : ℚ
  lastMessage : ℚ
deriving DecidableEq, Repr

/-- The aggregated row for one contact in `get_top_contacts_alltime`. -/
def contactStats (df : List Msg) (c : String) : ContactStats :=
  let l := msgsOf df c
  let s := sentCount l
  { contact := c
    totalMessages := l.length
    sent := s
    received := l.length - s
    yearsActive := (uniques (l.map (fun m => m.year))).length
    firstMessage := listMin 0 (l.map (fun m => m.t))
    lastMessage := listMax 0 (l.map (fun m => m.t)) }

/-- `get_top_contacts_alltime` (`people.py` lines 6-19): aggregate per
contact, sort by total message count descending, keep the first `n`. -/
def get_top_contacts_alltime (n : ℕ) (df : List Msg) : List ContactStats :=
  (sortStable (fun a b => decide (b.totalMessages ≤ a.totalMessages))
    ((uniques (df.map (fun m => m.contact))).map (contactStats df))).take n

/-- One row of the per-`(year, contact)` aggregation of
`get_top_contacts_by_year`. -/
structure YearRow where
  year : ℤ
  contact : String
  totalMessages : ℕ
  sent : ℕ
  received : ℕ
deriving DecidableEq, Repr

/-- The distinct `(year, contact)` group keys of the dataframe. -/
def yearContactPairs (df : List Msg) : List (ℤ × String) :=
  uniques (df.map (fun m => (m.year, m.contact)))

/-- The aggregated row of one `(year, contact)` group. -/
def yearRow (df : List Msg) (p : ℤ × String) : YearRow :=
  let l := df.filter (fun m => decide (m.year = p.1 ∧ m.contact = p.2))
  let s := sentCount l
  { year := p.1, contact := p.2, totalMessages := l.length, sent := s
    received := l.length - s }

/-- The per-`(year, contact)` aggregation (`yearly` frame). -/
def yearlyRows (df : List Msg) : List YearRow :=
  (yearContactPairs df).map (yearRow df)

/-- `rank(ascending=False, method='min')` within the year group: one plus
the number of rows of the same year with strictly greater count. -/
def rankIn (rows : List YearRow) (r : YearRow) : ℕ :=
  1 + (rows.filter (fun q =>
    decide (q.year = r.year ∧ r.totalMessages < q.totalMessages))).length

/-- `get_top_contacts_by_year` (`people.py` lines 21-35): rank rows within
each year, keep ranks `≤ n`, sort by `(year, rank)`. -/
def get_top_contacts_by_year (n : ℕ) (df : List Msg) : List (YearRow × ℕ) :=
  sortStable
    (fun a b => decide (a.1.year < b.1.year ∨ (a.1.year = b.1.year ∧ a.2 ≤ b.2)))
    (((yearlyRows df).map (fun r => (r, rankIn (yearlyRows df) r))).filter
      (fun p => decide (p.2 ≤ n)))

/-- One row of the `calculate_lopsidedness` output. -/
structure LopsRow where
  contact : String
  sent : ℕ
  total : ℕ
  received : ℕ
  lopsidedness : ℚ
deriving DecidableEq, Repr

/-- The aggregated lopsidedness row of one contact:
`lopsidedness = sent / (received + 0.1)`. -/
def lopsRow (df : List Msg) (c : String) : LopsRow :=
  { contact := c
    sent := sentCount (msgsOf df c)
    total := (msgsOf df c).length
    received := (msgsOf df c).length - sentCount (msgsOf df c)
    lopsidedness := (sentCount (msgsOf df c) : ℚ) /
      ((((msgsOf df c).length : ℚ) - (sentCount (msgsOf df c) : ℚ)) + 1/10) }

/-- `calculate_lopsidedness` (`people.py` lines 37-48): per-contact ratio,
rows with fewer than `MIN_MESSAGES_FOR_TOP_CONTACT` total messages dropped,
sorted by ratio descending. -/
def calculate_lopsidedness (df : List Msg) : List LopsRow :=
  sortStable (fun a b => decide (b.lopsidedness ≤ a.lopsidedness))
    (((uniques (df.map (fun m => m.contact))).map (lopsRow df)).filter
      (fun r => decide (MIN_MESSAGES_FOR_TOP_CONTACT ≤ r.total)))

/-- Ascending stable sort of one contact's messages by `datetime`
(the effect of `sort_values(['contact_name', 'datetime'])` within one
contact group). -/
def sortByTime (l : List Msg) : List Msg :=
  sortStable (fun a b => decide (a.t ≤ b.t)) l

/-- The conversation-start flag of one row given its shifted predecessor:
`hours_since_last > CONVERSATION_GAP_HOURS`, overwritten to `True` where
`prev_time` is null (`people.py` lines 57-58). -/
def startFlag (gapHours : ℚ) (r : Msg × Option Msg) : Bool :=
  match r.2 with
  | none => true
  | some p => decide (gapHours < (r.1.t - p.t) * 24)

/-- Per-contact body of `identify_conversation_starts` (`people.py`
lines 50-60): sort by time, shift, flag. -/
def startFlags (gapHours : ℚ) (l : List Msg) : List (Msg × Bool) :=
  (withPrev (sortByTime l)).map (fun r => (r.1, startFlag gapHours r))

/-- `identify_conversation_starts` over the whole dataframe: the grouped
per-contact flags, contacts in order of first appearance. -/
def identify_conversation_starts (gapHours : ℚ) (df : List Msg) :
    List (Msg × Bool) :=
  (uniques (df.map (fun m => m.contact))).foldr
    (fun c acc => startFlags gapHours (msgsOf df c) ++ acc) []

/-- One contact's time-sorted rows paired with their shifted predecessors
(`prev_time` / `prev_from_me` of `calculate_response_times`,
`people.py` lines 81-84). -/
def respPairs (l : List Msg) : List (Msg × Option Msg) :=
  withPrev (sortByTime l)

/-- `is_response = is_from_me != prev_from_me`; against the shifted-in
null, pandas `!=` yields `True`. -/
def isResp (r : Msg × Option Msg) : Bool :=
  match r.2 with
  | none => true
  | some p => decide (¬ r.1.isFromMe = p.isFromMe)

/-- `response_seconds`: the gap to the predecessor in seconds, null for
the first row of the group. -/
def respSeconds (r : Msg × Option Msg) : Option ℚ :=
  r.2.map (fun p => (r.1.t - p.t) * 86400)

/-- The row filter of `calculate_response_times` (`people.py` line 89):
`is_response & (response_seconds < 86400) & (response_seconds > 0)`;
comparisons against the null gap are false. -/
def passesResp (r : Msg × Option Msg) : Bool :=
  isResp r &&
    (match respSeconds r with
     | none => false
     | some s => decide (0 < s ∧ s < 86400))

/-- The response rows of one contact. -/
def responsesFor (df : List Msg) (c : String) : List (Msg × Option Msg) :=
  (respPairs (msgsOf df c)).filter passesResp

/-- The latencies of the user's responses for one contact
(`responses[responses['is_from_me'] == 1]`). -/
def yourGaps (df : List Msg) (c : String) : List ℚ :=
  ((responsesFor df c).filter (fun r => r.1.isFromMe)).filterMap respSeconds

/-- The latencies of the contact's responses
(`responses[responses['is_from_me'] == 0]`). -/
def theirGaps (df : List Msg) (c : String) : List ℚ :=
  ((responsesFor df c).filter (fun r => !r.1.isFromMe)).filterMap respSeconds

/-- One row of the `calculate_response_times` output (the outer merge of
the two per-direction median frames; the `_min` columns are the seconds
divided by 60). -/
structure RespRow where
  contact : String
  yourTimeSec : Option ℚ
  theirTimeSec : Option ℚ
  yourTimeMin : Option ℚ
  theirTimeMin : Option ℚ
deriving DecidableEq, Repr

/-- The output row of one contact: present iff some direction has at least
one filtered response (the outer merge of the two median frames). -/
def respRowOf (df : List Msg) (c : String) : Option RespRow :=
  if (yourGaps df c).isEmpty && (theirGaps df c).isEmpty then none
  else some
    { contact := c
      yourTimeSec := median (yourGaps df c)
      theirTimeSec := median (theirGaps df c)
      yourTimeMin := (median (yourGaps df c)).map (fun s => s / 60)
      theirTimeMin := (median (theirGaps df c)).map (fun s => s / 60) }

/-- `calculate_response_times` (`people.py` lines 79-103): per contact the
median response latency in each direction. -/
def calculate_response_times (df : List Msg) : List RespRow :=
  (uniques (df.map (fun m => m.contact))).filterMap (respRowOf df)

/-! ### `src/analysis/health.py` — `detect_fading_friendships`

The function reads the wall clock (`pd.Timestamp.now()`); the embedding
takes `now` as a parameter (in days, like `Msg.t`).  `dt.to_period('M')`
(calendar month of a timestamp) is a property of the external calendar
library, passed in as the parameter `monthOf`.  `timedelta.days` of
`now - last_msg` is the floor of the day difference. -/

/-- One entry of the fading-friendships output; rates and the drop are the
`round(x, 1)` values stored by the source.  `lastContact` stands for the
`strftime`-formatted `last_contact_date`. -/
structure FadingEntry where
  contact : String
  totalMessages : ℕ
  activeMonths : ℕ
  baselineRate : ℚ
  recentRate : ℚ
  dropPercentage : ℚ
  daysSinceContact : ℤ
  lastContact : ℚ
deriving DecidableEq, Repr

/-- The prior-window rate (`health.py` lines 56-71): the year-long window
ending one year ago if it holds at least 15 messages, otherwise the
180-day window ending 90 days ago if that holds at least 15, otherwise the
contact is rejected (`none`). -/
def priorRateOf (now : ℚ) (cdf : List Msg) : Option ℚ :=
  let priorYear := cdf.filter (fun m => decide (now - 730 ≤ m.t ∧ m.t < now - 365))
  if priorYear.length < 15 then
    let priorPeriod := cdf.filter (fun m => decide (now - 270 ≤ m.t ∧ m.t < now - 90))
    if priorPeriod.length < 15 then none
    else some ((priorPeriod.length : ℚ) / 180 * 7)
  else some ((priorYear.length : ℚ) / 365 * 7)

/-- The trailing-90-day rate in messages per week (`health.py` line 73). -/
def recentRateOf (now : ℚ) (cdf : List Msg) : ℚ :=
  ((cdf.filter (fun m => decide (now - 90 ≤ m.t))).length : ℚ) / 90 * 7

/-- The per-contact body of `detect_fading_friendships` (`health.py` lines
23-89): each `continue` of the source is a `none`. -/
def fadingEntry (monthOf : ℚ → ℤ) (now : ℚ) (minMessages maxInactiveDays : ℕ)
    (df : List Msg) (c : String) : Option FadingEntry :=
  if strStartsWith "urn:" c || strStartsWith "+" c then none
  else
    let cdf := msgsOf df c
    if cdf.length < minMessages then none
    else
      let lastMsg := listMax 0 (cdf.map (fun m => m.t))
      let daysSince := ⌊now - lastMsg⌋
      if (maxInactiveDays : ℤ) < daysSince then none
      else
        let activeMonths := (uniques (cdf.map (fun m => monthOf m.t))).length
        if activeMonths < 3 then none
        else if (cdf.filter (fun m => decide (now - 730 ≤ m.t))).length < 30 then none
        else
          match priorRateOf now cdf with
          | none => none
          | some priorRate =>
            let recentRate := recentRateOf now cdf
            if 1 ≤ priorRate ∧ recentRate < priorRate * (3/10) then
              some
                { contact := c
                  totalMessages := cdf.length
                  activeMonths := activeMonths
                  baselineRate := pyRound1 priorRate
                  recentRate := pyRound1 recentRate
                  dropPercentage := pyRound1 ((1 - recentRate / priorRate) * 100)
                  daysSinceContact := daysSince
                  lastContact := lastMsg }
            else none

/-- `detect_fading_friendships` (`health.py` lines 6-94): the qualifying
entries sorted by `drop_percentage` descending (stable), first 10 kept. -/
def detect_fading_friendships (monthOf : ℚ → ℤ) (now : ℚ)
    (minMessages maxInactiveDays : ℕ) (df : List Msg) : List FadingEntry :=
  (sortStable (fun a b => decide (b.dropPercentage ≤ a.dropPercentage))
    ((uniques (df.map (fun m => m.contact))).filterMap
      (fadingEntry monthOf now minMessages maxInactiveDays df))).take 10

/-! ### `src/analysis/temporal.py` — `get_longest_streaks` -/

/-- The distinct active calendar dates of one contact, sorted ascending:
the date keys of `df.groupby(['contact_name', 'date'])` restricted to the
contact, in the order produced by `sort_values(['contact_name','date'])`.
Note the source groups **all** messages, with no `is_from_me` filter. -/
def activeDates (df : List Msg) (c : String) : List ℤ :=
  sortStable (fun a b => decide (a ≤ b)) (uniques ((msgsOf df c).map (fun m => m.date)))

/-- The `new_streak` column (`temporal.py` line 46): the gap to the shifted
previous date differs from 1, or the previous date is null. -/
def newStreakFlags (ds : List ℤ) : List Bool :=
  (withPrev ds).map (fun r =>
    match r.2 with
    | none => true
    | some p => decide (¬ r.1 - p = 1))

/-- Running sum of boolean flags: the `cumsum` of `new_streak`
(`temporal.py` line 47). -/
def cumsumFlags (acc : ℕ) : List Bool → List ℕ
  | [] => []
  | b :: rest =>
    let acc2 := if b then acc + 1 else acc
    acc2 :: cumsumFlags acc2 rest

/-- The `streak_id` column of one contact's date list. -/
def streakIds (ds : List ℤ) : List ℕ := cumsumFlags 0 (newStreakFlags ds)

/-- Group the dates by `streak_id` (`temporal.py` lines 49-53): for each
distinct id, the dates carrying it. -/
def streaksOf (ds : List ℤ) : List (List ℤ) :=
  (uniques (streakIds ds)).map (fun i =>
    ((ds.zip (streakIds ds)).filter (fun p => decide (p.2 = i))).map (fun p => p.1))

/-- One row of the `get_longest_streaks` output. -/
structure StreakRow where
  contact : String
  streakLength : ℕ
  startDate : ℤ
  endDate : ℤ
deriving DecidableEq, Repr

/-- The aggregated streak rows of one contact: count, min date, max date
per streak group. -/
def contactStreaks (df : List Msg) (c : String) : List StreakRow :=
  (streaksOf (activeDates df c)).map (fun g =>
    { contact := c, streakLength := g.length
      startDate := listMin 0 g, endDate := listMax 0 g })

/-- `idxmax`: the first element attaining the maximal key. -/
def firstMaxBy {α : Type} (key : α → ℕ) : List α → Option α
  | [] => none
  | x :: xs =>
    match firstMaxBy key xs with
    | none => some x
    | some y => if key x < key y then some y else some x

/-- `get_longest_streaks` (`temporal.py` lines 37-58): the longest streak
row per contact (first one on ties, as `idxmax`), sorted by length
descending, first `topN` kept. -/
def get_longest_streaks (topN : ℕ) (df : List Msg) : List StreakRow :=
  (sortStable (fun a b => decide (b.streakLength ≤ a.streakLength))
    ((uniques (df.map (fun m => m.contact))).filterMap (fun c =>
      firstMaxBy (fun r => r.streakLength) (contactStreaks df c)))).take topN

/-! ### `src/analysis/content.py` — phrase extraction

The n-gram candidates come from `sklearn.CountVectorizer`, an external
library; the embedding takes the per-year candidate list `(phrase, count)`
as input and models the source's own logic: the descending sort by count
and the filtering loop of `get_top_phrases_by_year` (lines 169-203). -/

/-- Python's `a in b` on strings: `a` is a contiguous substring of `b`. -/
def isSubstr (a b : String) : Bool :=
  b.toList.tails.any (fun tl => a.toList.isPrefixOf tl)

/-- `is_substring_of_existing` (`content.py` lines 145-150). -/
def is_substring_of_existing (phrase : String) (existing : List String) : Bool :=
  existing.any (fun e => isSubstr phrase e || isSubstr e phrase)

/-- Python `str.split()` on whitespace (the phrases are single-spaced). -/
def wordsOf (phrase : String) : List String :=
  (phrase.splitOn " ").filter (fun w => decide (¬ w = ""))

/-- The `is_boring` disjunction of the filtering loop (`content.py` lines
175-196) for a candidate, given the already-accepted phrases. -/
def phraseIsBoring (boringPhrases boringWords : List String)
    (accepted : List String) (phrase : String) : Bool :=
  boringPhrases.any (fun b => isSubstr b phrase || isSubstr phrase b)
  || (wordsOf phrase).all (fun w => boringWords.contains w)
  || decide (((wordsOf phrase).filter (fun w => !boringWords.contains w)).length < 2)
  || is_substring_of_existing phrase accepted

/-- One accepted phrase record (`{'year': ..., 'phrase': ..., 'count': ...}`). -/
structure YearPhrase where
  year : ℤ
  phrase : String
  count : ℕ
deriving DecidableEq, Repr

/-- The filtering loop of `get_top_phrases_by_year` (`content.py` lines
172-203): accept candidates in order unless boring, stop as soon as
`nPhrases` survivors are collected. -/
def phraseLoop (boringPhrases boringWords : List String) (nPhrases : ℕ)
    (year : ℤ) : List (String × ℕ) → List YearPhrase → List YearPhrase
  | [], acc => acc
  | (p, cnt) :: rest, acc =>
    let acc2 :=
      if phraseIsBoring boringPhrases boringWords (acc.map (fun e => e.phrase)) p
      then acc else acc ++ [⟨year, p, cnt⟩]
    if nPhrases ≤ acc2.length then acc2
    else phraseLoop boringPhrases boringWords nPhrases year rest acc2

/-- The per-year body of `get_top_phrases_by_year`: sort the candidates by
count descending (stable) and run the filtering loop. -/
def topPhrasesForYear (boringPhrases boringWords : List String) (nPhrases : ℕ)
    (year : ℤ) (cands : List (String × ℕ)) : List YearPhrase :=
  phraseLoop boringPhrases boringWords nPhrases year
    (sortStable (fun a b => decide (b.2 ≤ a.2)) cands) []

/-- `get_top_phrases_by_year` (`content.py` lines 152-209) over the
distinct years, with the vectorizer's per-year candidates supplied by
`candsOf`. -/
def get_top_phrases_by_year (boringPhrases boringWords : List String)
    (nPhrases : ℕ) (years : List ℤ) (candsOf : ℤ → List (String × ℕ)) :
    List YearPhrase :=
  years.foldr (fun y acc =>
    topPhrasesForYear boringPhrases boringWords nPhrases y (candsOf y) ++ acc) []

/-! ### `src/analysis/temporal.py` — `get_yearly_volume` -/

/-- One row of the `get_yearly_volume` output. -/
structure YearVolume where
  year : ℤ
  total : ℕ
  sent : ℕ
  received : ℕ
deriving DecidableEq, Repr

/-- `get_yearly_volume` (`temporal.py` lines 26-35): totals per calendar
year over the whole dataframe (no per-contact filtering), years in the
sorted order of the `groupby` keys. -/
def get_yearly_volume (df : List Msg) : List YearVolume :=
  (sortStable (fun a b => decide (a ≤ b)) (uniques (df.map (fun m => m.year)))).map
    (fun y =>
      { year := y
        total := (df.filter (fun m => decide (m.year = y))).length
        sent := sentCount (df.filter (fun m => decide (m.year = y)))
        received := (df.filter (fun m => decide (m.year = y))).length -
          sentCount (df.filter (fun m => decide (m.year = y))) })

/-! ## Claim C2 — conversation starts -/

/-- The specification's reading of the conversation-start rule: walking the
contact's time-sorted stream, a message is flagged iff it has no
predecessor (first message ever with that contact) or the gap to the
immediately preceding message strictly exceeds the gap-hours threshold. -/
def startFlagsSpec (gapHours : ℚ) : Option Msg → List Msg → List (Msg × Bool)
  | _, [] => []
  | none, m :: rest => (m, true) :: startFlagsSpec gapHours (some m) rest
  | some p, m :: rest =>
    (m, decide (gapHours < (m.t - p.t) * 24)) :: startFlagsSpec gapHours (some m) rest

theorem zip_startFlag_eq_spec (gapHours : ℚ) :
    ∀ (l : List Msg) (p0 : Option Msg),
      (l.zip (p0 :: l.map some)).map (fun r => (r.1, startFlag gapHours r)) =
        startFlagsSpec gapHours p0 l := by
  intro l
  induction l with
  | nil => intro p0; cases p0 <;> rfl
  | cons m rest ih =>
    intro p0
    cases p0 with
    | none =>
      simp only [List.zip_cons_cons, List.map_cons, startFlagsSpec, ih]
      rfl
    | some p =>
      simp only [List.zip_cons_cons, List.map_cons, startFlagsSpec, ih]
      rfl

/-- The three-message example of the claim: contact "Alex" at hours 0, 2
and 10, all received. -/
def dfAlex : List Msg :=
  [⟨"Alex", 0, false, 2024, 0⟩, ⟨"Alex", 2/24, false, 2024, 0⟩,
   ⟨"Alex", 10/24, false, 2024, 0⟩]

/-- C2: `identify_conversation_starts` flags a message iff it is the first
message (in timestamp order, either direction) ever exchanged with that
contact, or the gap since the immediately preceding message with that
contact strictly exceeds the gap-hours threshold; the first message of a
contact is flagged regardless of the threshold, and for messages at hours
0, 2, 10 with the default 4-hour threshold exactly hours 0 and 10 are
flagged. -/
theorem conversation_starts_iff_first_or_gap :
    (∀ (gapHours : ℚ) (l : List Msg),
      startFlags gapHours l = startFlagsSpec gapHours none (sortByTime l))
    ∧ (∀ (gapHours : ℚ) (df : List Msg),
        identify_conversation_starts gapHours df =
          (uniques (df.map (fun m => m.contact))).foldr
            (fun c acc => startFlagsSpec gapHours none (sortByTime (msgsOf df c)) ++ acc) [])
    ∧ (∀ (gapHours : ℚ) (m : Msg) (rest : List Msg),
        startFlagsSpec gapHours none (m :: rest) =
          (m, true) :: startFlagsSpec gapHours (some m) rest)
    ∧ (identify_conversation_starts CONVERSATION_GAP_HOURS dfAlex).map (fun r => r.2) =
        [true, false, true] := by
  have h1 : ∀ (gapHours : ℚ) (l : List Msg),
      startFlags gapHours l = startFlagsSpec gapHours none (sortByTime l) := by
    intro gapHours l
    rw [startFlags, withPrev]
    exact zip_startFlag_eq_spec gapHours (sortByTime l) none
  refine ⟨h1, ?_, fun _ _ _ => rfl, by decide⟩
  intro gapHours df
  rw [identify_conversation_starts]
  congr 1
  funext c acc
  rw [h1]

/-! ## Claim C3 — per-year ranking with ties -/

/-- Per-year counts `{A: 10, B: 10, C: 5}` of the claim's tie example. -/
def dfABC : List Msg :=
  ((List.range 10).map (fun i => ⟨"A", (i : ℚ), true, 2020, 0⟩))
  ++ ((List.range 10).map (fun i => ⟨"B", (i : ℚ), true, 2020, 0⟩))
  ++ ((List.range 5).map (fun i => ⟨"C", (i : ℚ), true, 2020, 0⟩))

/-- C3: in `get_top_contacts_by_year` every ranked row's rank is one plus
the number of same-year rows with strictly greater message count, rows
tied on count within a year receive identical ranks, and on counts
`{A: 10, B: 10, C: 5}` A and B get rank 1 while C gets rank 3. -/
theorem get_top_contacts_by_year_rank_spec :
    (∀ (n : ℕ) (df : List Msg) (p : YearRow × ℕ),
      p ∈ get_top_contacts_by_year n df →
        p.2 = 1 + ((yearlyRows df).filter (fun q =>
          decide (q.year = p.1.year ∧ p.1.totalMessages < q.totalMessages))).length)
    ∧ (∀ (n : ℕ) (df : List Msg) (p q : YearRow × ℕ),
        p ∈ get_top_contacts_by_year n df → q ∈ get_top_contacts_by_year n df →
          p.1.year = q.1.year → p.1.totalMessages = q.1.totalMessages → p.2 = q.2)
    ∧ (get_top_contacts_by_year 10 dfABC).map (fun p => (p.1.contact, p.2)) =
        [("A", 1), ("B", 1), ("C", 3)] := by
  have hmem : ∀ (n : ℕ) (df : List Msg) (p : YearRow × ℕ),
      p ∈ get_top_contacts_by_year n df →
        ∃ r, r ∈ yearlyRows df ∧ p = (r, rankIn (yearlyRows df) r) := by
    intro n df p hp
    rw [get_top_contacts_by_year, mem_sortStable] at hp
    rcases List.mem_filter.mp hp with ⟨hp, -⟩
    rcases List.mem_map.mp hp with ⟨r, hr, heq⟩
    exact ⟨r, hr, heq.symm⟩
  have h1 : ∀ (n : ℕ) (df : List Msg) (p : YearRow × ℕ),
      p ∈ get_top_contacts_by_year n df →
        p.2 = 1 + ((yearlyRows df).filter (fun q =>
          decide (q.year = p.1.year ∧ p.1.totalMessages < q.totalMessages))).length := by
    intro n df p hp
    rcases hmem n df p hp with ⟨r, -, rfl⟩
    rfl
  refine ⟨h1, ?_, by decide⟩
  intro n df p q hp hq hy ht
  rw [h1 n df p hp, h1 n df q hq, hy, ht]

/-! ## Claim C4 — lopsidedness -/

/-- Ten sent messages from one contact: a row surviving the
`MIN_MESSAGES_FOR_TOP_CONTACT` filter with `received = 0`. -/
def dfLop : List Msg := (List.range 10).map (fun i => ⟨"A", (i : ℚ), true, 2020, 0⟩)

/-- C4: every row of `calculate_lopsidedness` has
`lopsidedness = sent / (received + 0.1)` with `received = total - sent`,
the value is nonnegative, a contact with `sent = 0` has exactly 0, and a
contact with `received = 0` has the finite value `sent / 0.1`. -/
theorem calculate_lopsidedness_spec (df : List Msg) (r : LopsRow)
    (hr : r ∈ calculate_lopsidedness df) :
    r.lopsidedness = (r.sent : ℚ) / ((r.received : ℚ) + 1/10)
    ∧ r.received = r.total - r.sent
    ∧ 0 ≤ r.lopsidedness
    ∧ (r.sent = 0 → r.lopsidedness = 0)
    ∧ (r.received = 0 → r.lopsidedness = (r.sent : ℚ) / (1/10)) := by
  rw [calculate_lopsidedness, mem_sortStable] at hr
  rcases List.mem_filter.mp hr with ⟨hr, -⟩
  rcases List.mem_map.mp hr with ⟨c, -, rfl⟩
  have hs : sentCount (msgsOf df c) ≤ (msgsOf df c).length :=
    List.length_filter_le _ _
  have hcast : (((msgsOf df c).length - sentCount (msgsOf df c) : ℕ) : ℚ) =
      ((msgsOf df c).length : ℚ) - (sentCount (msgsOf df c) : ℚ) :=
    Nat.cast_sub hs
  have hsub : (0 : ℚ) ≤ ((msgsOf df c).length : ℚ) - (sentCount (msgsOf df c) : ℚ) := by
    rw [sub_nonneg]
    exact_mod_cast hs
  have e1 : (lopsRow df c).sent = sentCount (msgsOf df c) := rfl
  have e2 : (lopsRow df c).received = (msgsOf df c).length - sentCount (msgsOf df c) := rfl
  have e4 : (lopsRow df c).lopsidedness = (sentCount (msgsOf df c) : ℚ) /
      ((((msgsOf df c).length : ℚ) - (sentCount (msgsOf df c) : ℚ)) + 1/10) := rfl
  refine ⟨?_, rfl, ?_, ?_, ?_⟩
  · rw [e1, e2, e4, hcast]
  · rw [e4]
    apply div_nonneg (Nat.cast_nonneg _)
    linarith
  · intro h0
    rw [e1] at h0
    rw [e4, h0, Nat.cast_zero, zero_div]
  · intro h0
    rw [e2] at h0
    have hlen : (msgsOf df c).length = sentCount (msgsOf df c) :=
      Nat.le_antisymm (Nat.sub_eq_zero_iff_le.mp h0) hs
    rw [e4, e1, hlen, sub_self, zero_add]

/-- Witness for C3 at the `{A: 10, B: 10, C: 5}` dataframe: the A row has
rank 1 with no strictly greater same-year count, and A and B (tied) share
the rank. -/
theorem get_top_contacts_by_year_rank_spec_witness :
    ((⟨2020, "A", 10, 10, 0⟩ : YearRow), (1 : ℕ)) ∈ get_top_contacts_by_year 10 dfABC
    ∧ ((⟨2020, "A", 10, 10, 0⟩ : YearRow), (1 : ℕ)).2 =
        1 + ((yearlyRows dfABC).filter (fun q =>
          decide (q.year = ((⟨2020, "A", 10, 10, 0⟩ : YearRow), (1 : ℕ)).1.year
            ∧ ((⟨2020, "A", 10, 10, 0⟩ : YearRow), (1 : ℕ)).1.totalMessages
              < q.totalMessages))).length
    ∧ ((⟨2020, "A", 10, 10, 0⟩ : YearRow), (1 : ℕ)).2 =
        ((⟨2020, "B", 10, 10, 0⟩ : YearRow), (1 : ℕ)).2 :=
  ⟨by decide,
   get_top_contacts_by_year_rank_spec.1 10 dfABC _ (by decide),
   get_top_contacts_by_year_rank_spec.2.1 10 dfABC _ _ (by decide) (by decide) rfl rfl⟩

/-- Witness for C4 at the concrete dataframe `dfLop`. -/
theorem calculate_lopsidedness_spec_witness :
    lopsRow dfLop "A" ∈ calculate_lopsidedness dfLop ∧
      ((lopsRow dfLop "A").lopsidedness =
          ((lopsRow dfLop "A").sent : ℚ) / (((lopsRow dfLop "A").received : ℚ) + 1/10)
        ∧ (lopsRow dfLop "A").received = (lopsRow dfLop "A").total - (lopsRow dfLop "A").sent
        ∧ 0 ≤ (lopsRow dfLop "A").lopsidedness
        ∧ ((lopsRow dfLop "A").sent = 0 → (lopsRow dfLop "A").lopsidedness = 0)
        ∧ ((lopsRow dfLop "A").received = 0 →
            (lopsRow dfLop "A").lopsidedness = ((lopsRow dfLop "A").sent : ℚ) / (1/10))) :=
  ⟨by decide, calculate_lopsidedness_spec dfLop (lopsRow dfLop "A") (by decide)⟩

/-! ## Claims C9 and C10 — response times -/

theorem mem_withPrev {α : Type} (l : List α) (r : α × Option α)
    (hr : r ∈ withPrev l) : r.1 ∈ l ∧ ∀ p, r.2 = some p → p ∈ l := by
  rcases r with ⟨a, b⟩
  rcases List.of_mem_zip hr with ⟨ha, hb⟩
  refine ⟨ha, fun p hp => ?_⟩
  subst hp
  rcases List.mem_cons.mp hb with h | h
  · exact absurd h (by simp)
  · rcases List.mem_map.mp h with ⟨x, hx, hxe⟩
    rwa [Option.some_inj.mp hxe] at hx

theorem mem_msgsOf (df : List Msg) (c : String) (m : Msg) :
    m ∈ msgsOf df c ↔ m ∈ df ∧ m.contact = c := by
  simp [msgsOf, List.mem_filter]

theorem passesResp_some (r : Msg × Option Msg) (h : passesResp r = true) :
    ∃ p, r.2 = some p := by
  rcases r with ⟨a, b⟩
  cases b with
  | none => simp [passesResp, respSeconds] at h
  | some p => exact ⟨p, rfl⟩

/-- The contact's messages: both members of a pair produced by `respPairs`
belong to the contact's filtered rows. -/
theorem mem_respPairs (df : List Msg) (c : String) (r : Msg × Option Msg)
    (hr : r ∈ respPairs (msgsOf df c)) :
    r.1 ∈ msgsOf df c ∧ ∀ p, r.2 = some p → p ∈ msgsOf df c := by
  have h := mem_withPrev (sortByTime (msgsOf df c)) r hr
  refine ⟨(mem_sortStable _ _ _).mp h.1, fun p hp => ?_⟩
  exact (mem_sortStable _ _ _).mp (h.2 p hp)

/-- C10: the first row of each contact's sorted stream (the one whose
shifted predecessor is null) has `is_response = True` under pandas null
semantics, yet its null latency fails the `0 < s < 86400` filter, so it is
dropped; rows past the first have a real predecessor, and every filtered
response row has a real predecessor — hence every latency entering a
median comes from an actually existing prior message. -/
theorem response_first_row_filtered (df : List Msg) (c : String) :
    (∀ r ∈ respPairs (msgsOf df c), r.2 = none →
        isResp r = true ∧ passesResp r = false)
    ∧ (∀ r ∈ (respPairs (msgsOf df c)).drop 1, r.2.isSome = true)
    ∧ (∀ r ∈ responsesFor df c, r.2.isSome = true) := by
  refine ⟨?_, ?_, ?_⟩
  · rintro ⟨a, b⟩ hr h2
    cases h2
    exact ⟨rfl, by simp [passesResp, respSeconds]⟩
  · intro r hr
    rw [respPairs, withPrev] at hr
    cases hs : sortByTime (msgsOf df c) with
    | nil => rw [hs] at hr; simp at hr
    | cons m rest =>
      rw [hs] at hr
      simp only [List.map_cons, List.zip_cons_cons, List.drop_succ_cons,
        List.drop_zero] at hr
      rcases r with ⟨a, b⟩
      rcases List.of_mem_zip hr with ⟨-, hb⟩
      rcases List.mem_cons.mp hb with h | h
      · rw [h]; rfl
      · rcases List.mem_map.mp h with ⟨x, -, hxe⟩
        rw [← hxe]; rfl
  · intro r hr
    rcases passesResp_some r (List.mem_filter.mp hr).2 with ⟨p, hp⟩
    rw [hp]; rfl

theorem respRowOf_some (df : List Msg) (c : String) (row : RespRow)
    (h : respRowOf df c = some row) :
    row.contact = c
    ∧ row.yourTimeSec = median (yourGaps df c)
    ∧ row.theirTimeSec = median (theirGaps df c)
    ∧ ¬ (yourGaps df c = [] ∧ theirGaps df c = []) := by
  rw [respRowOf] at h
  split at h
  · exact absurd h (by simp)
  · rename_i hcond
    cases Option.some_inj.mp h
    refine ⟨rfl, rfl, rfl, fun ⟨h1, h2⟩ => hcond ?_⟩
    rw [h1, h2]
    rfl

/-- C9: `calculate_response_times` keeps only consecutive-pair rows whose
sender direction changes and whose gap is strictly between 0 and 86400
seconds; each output row carries the per-direction medians of those
latencies; and a contact all of whose messages go one direction yields no
response pair and is absent from the output (no error). -/
theorem calculate_response_times_spec (df : List Msg) :
    (∀ (c : String) (b : Bool), (∀ m ∈ df, m.contact = c → m.isFromMe = b) →
        responsesFor df c = [] ∧
          ∀ row ∈ calculate_response_times df, ¬ row.contact = c)
    ∧ (∀ (c : String) (r : Msg × Option Msg), r ∈ responsesFor df c →
        ∃ p, r.2 = some p ∧ ¬ r.1.isFromMe = p.isFromMe ∧
          ∃ s, respSeconds r = some s ∧ 0 < s ∧ s < 86400)
    ∧ (∀ row ∈ calculate_response_times df,
        row.yourTimeSec = median (yourGaps df row.contact)
        ∧ row.theirTimeSec = median (theirGaps df row.contact)
        ∧ ¬ (yourGaps df row.contact = [] ∧ theirGaps df row.contact = [])) := by
  refine ⟨?_, ?_, ?_⟩
  · intro c b hall
    have hresp : responsesFor df c = [] := by
      rw [responsesFor, List.filter_eq_nil_iff]
      rintro ⟨a, pb⟩ hr
      cases pb with
      | none => simp [passesResp, respSeconds]
      | some p =>
        rcases mem_respPairs df c (a, some p) hr with ⟨ha, hp⟩
        have hpc := hp p rfl
        have ha2 := hall a ((mem_msgsOf df c a).mp ha).1 ((mem_msgsOf df c a).mp ha).2
        have hp2 := hall p ((mem_msgsOf df c p).mp hpc).1 ((mem_msgsOf df c p).mp hpc).2
        simp [passesResp, isResp, ha2, hp2]
    refine ⟨hresp, fun row hrow hc => ?_⟩
    rw [calculate_response_times] at hrow
    rcases List.mem_filterMap.mp hrow with ⟨c0, -, hsome⟩
    have hprops := respRowOf_some df c0 row hsome
    rw [hprops.1] at hc
    subst hc
    apply hprops.2.2.2
    constructor
    · rw [yourGaps, hresp]; rfl
    · rw [theirGaps, hresp]; rfl
  · intro c r hr
    have hpass := (List.mem_filter.mp hr).2
    rcases r with ⟨a, pb⟩
    cases pb with
    | none => simp [passesResp, respSeconds] at hpass
    | some p =>
      simp only [passesResp, isResp, respSeconds, Option.map_some', Bool.and_eq_true,
        decide_eq_true_eq] at hpass
      exact ⟨p, rfl, hpass.1, (a.t - p.t) * 86400, rfl, hpass.2.1, hpass.2.2⟩
  · intro row hrow
    rw [calculate_response_times] at hrow
    rcases List.mem_filterMap.mp hrow with ⟨c0, -, hsome⟩
    have hprops := respRowOf_some df c0 row hsome
    rw [hprops.1]
    exact hprops.2

/-- Four messages: contact "A" has a direction change 1800 s apart,
contact "B" only ever sends one direction. -/
def df9 : List Msg :=
  [⟨"A", 0, false, 2024, 0⟩, ⟨"A", 1/48, true, 2024, 0⟩,
   ⟨"B", 0, true, 2024, 0⟩, ⟨"B", 1, true, 2024, 0⟩]

/-- Witness for C9 at `df9`: contact "B" is single-direction, so it has no
response pairs and is absent from the output. -/
theorem calculate_response_times_spec_witness :
    (∀ m ∈ df9, m.contact = "B" → m.isFromMe = true)
    ∧ (responsesFor df9 "B" = []
        ∧ ∀ row ∈ calculate_response_times df9, ¬ row.contact = "B") :=
  ⟨by decide, (calculate_response_times_spec df9).1 "B" true (by decide)⟩

/-- Witness for C10 at `df9`: the first "A" row has a null predecessor,
counts as a direction change, and is filtered out; the surviving response
row has a real predecessor. -/
theorem response_first_row_filtered_witness :
    ((⟨"A", 0, false, 2024, 0⟩, (none : Option Msg)) ∈ respPairs (msgsOf df9 "A"))
    ∧ (isResp (⟨"A", 0, false, 2024, 0⟩, (none : Option Msg)) = true
        ∧ passesResp (⟨"A", 0, false, 2024, 0⟩, (none : Option Msg)) = false)
    ∧ ((⟨"A", 1/48, true, 2024, 0⟩, some (⟨"A", 0, false, 2024, 0⟩ : Msg))
          ∈ responsesFor df9 "A"
        ∧ (some (⟨"A", 0, false, 2024, 0⟩ : Msg)).isSome = true) :=
  ⟨by decide,
   (response_first_row_filtered df9 "A").1 _ (by decide) rfl,
   ⟨by decide, (response_first_row_filtered df9 "A").2.2
      ((⟨"A", 1/48, true, 2024, 0⟩ : Msg), some (⟨"A", 0, false, 2024, 0⟩ : Msg))
      (by decide)⟩⟩

/-! ## Claims C7 and C1 — fading friendships -/

/-- Every `some` result of `fadingEntry` carries the iterated contact name,
which passed the prefix skip. -/
theorem fadingEntry_some (monthOf : ℚ → ℤ) (now : ℚ)
    (minMessages maxInactiveDays : ℕ) (df : List Msg) (c : String)
    (e : FadingEntry)
    (h : fadingEntry monthOf now minMessages maxInactiveDays df c = some e) :
    e.contact = c ∧ strStartsWith "urn:" c = false ∧ strStartsWith "+" c = false := by
  simp only [fadingEntry] at h
  split at h
  · exact absurd h (by simp)
  · rename_i hpre
    rw [Bool.or_eq_true, not_or] at hpre
    split at h
    · exact absurd h (by simp)
    · split at h
      · exact absurd h (by simp)
      · split at h
        · exact absurd h (by simp)
        · split at h
          · exact absurd h (by simp)
          · split at h
            · exact absurd h (by simp)
            · split at h
              · cases Option.some_inj.mp h
                exact ⟨rfl, Bool.not_eq_true _ ▸ hpre.1, Bool.not_eq_true _ ▸ hpre.2⟩
              · exact absurd h (by simp)

/-- Membership in the fading output comes from a `some` of `fadingEntry`. -/
theorem mem_detect_fading (monthOf : ℚ → ℤ) (now : ℚ)
    (minMessages maxInactiveDays : ℕ) (df : List Msg) (e : FadingEntry)
    (he : e ∈ detect_fading_friendships monthOf now minMessages maxInactiveDays df) :
    ∃ c, fadingEntry monthOf now minMessages maxInactiveDays df c = some e := by
  rw [detect_fading_friendships] at he
  have he2 := (List.take_sublist 10 _).subset he
  rw [mem_sortStable] at he2
  rcases List.mem_filterMap.mp he2 with ⟨c, -, hsome⟩
  exact ⟨c, hsome⟩

/-- A numeric-only contact with a fading history: 100 messages in the
prior-year window and a single message 50 days before `now = 1000`. -/
def dfFade7 : List Msg :=
  ((List.range 100).map (fun i => ⟨"12345", 300 + (i : ℚ), true, 2024, 0⟩))
  ++ [⟨"12345", 950, true, 2024, 0⟩]

/-- A calendar-month assignment for the concrete inputs (30-day months). -/
def monthOf30 : ℚ → ℤ := fun t => ⌊t / 30⌋

set_option maxRecDepth 100000 in
/-- Counterexample to C7: the numeric-only contact "12345" is *not*
excluded by `detect_fading_friendships` — it appears in the output (the
digit-only skip exists only in `detect_new_connections`). -/
theorem detect_fading_numeric_contact_included :
    (detect_fading_friendships monthOf30 1000 100 365 dfFade7).map
        (fun e => e.contact) = ["12345"]
    ∧ "12345".toList.all Char.isDigit = true := by
  constructor
  · decide
  · decide

/-- C7 (amended): `detect_fading_friendships` excludes the contacts whose
identifier starts with `"+"` or with `"urn:"`; numeric-only identifiers
are not excluded there. -/
theorem detect_fading_skips_plus_urn (monthOf : ℚ → ℤ) (now : ℚ)
    (minMessages maxInactiveDays : ℕ) (df : List Msg) :
    (detect_fading_friendships monthOf now minMessages maxInactiveDays df).filter
      (fun e => strStartsWith "urn:" e.contact || strStartsWith "+" e.contact) = [] := by
  rw [List.filter_eq_nil_iff]
  intro e he
  rcases mem_detect_fading monthOf now minMessages maxInactiveDays df e he with ⟨c, hc⟩
  rcases fadingEntry_some monthOf now minMessages maxInactiveDays df c e hc with
    ⟨hec, h1, h2⟩
  rw [hec, h1, h2]
  simp

/-- C1: under the admission filters, the per-contact fading classification
holds iff `prior_rate ≥ 1` and `recent_rate < prior_rate * 0.3`; the
reported drop percentage is `round((1 - recent/prior) * 100, 1)`; and the
returned list is sorted by drop percentage descending with at most 10
entries drawn from the qualifying contacts. -/
theorem detect_fading_spec (monthOf : ℚ → ℤ) (now : ℚ) (df : List Msg)
    (c : String) (pr : ℚ)
    (hpre1 : strStartsWith "urn:" c = false)
    (hpre2 : strStartsWith "+" c = false)
    (hmin : 100 ≤ (msgsOf df c).length)
    (hdays : ⌊now - listMax 0 ((msgsOf df c).map (fun m => m.t))⌋ ≤ 365)
    (hmonths : 3 ≤ (uniques ((msgsOf df c).map (fun m => monthOf m.t))).length)
    (hactive : 30 ≤ ((msgsOf df c).filter (fun m => decide (now - 730 ≤ m.t))).length)
    (hprior : priorRateOf now (msgsOf df c) = some pr) :
    ((fadingEntry monthOf now 100 365 df c).isSome = true ↔
        (1 ≤ pr ∧ recentRateOf now (msgsOf df c) < pr * (3/10)))
    ∧ (∀ e, fadingEntry monthOf now 100 365 df c = some e →
        e.dropPercentage = pyRound1 ((1 - recentRateOf now (msgsOf df c) / pr) * 100)
        ∧ e.baselineRate = pyRound1 pr
        ∧ e.recentRate = pyRound1 (recentRateOf now (msgsOf df c)))
    ∧ (detect_fading_friendships monthOf now 100 365 df).Pairwise
        (fun a b => b.dropPercentage ≤ a.dropPercentage)
    ∧ (detect_fading_friendships monthOf now 100 365 df).length ≤ 10
    ∧ (∀ e ∈ detect_fading_friendships monthOf now 100 365 df,
        ∃ c0, fadingEntry monthOf now 100 365 df c0 = some e) := by
  have hfe : fadingEntry monthOf now 100 365 df c =
      if 1 ≤ pr ∧ recentRateOf now (msgsOf df c) < pr * (3/10) then
        some
          { contact := c
            totalMessages := (msgsOf df c).length
            activeMonths := (uniques ((msgsOf df c).map (fun m => monthOf m.t))).length
            baselineRate := pyRound1 pr
            recentRate := pyRound1 (recentRateOf now (msgsOf df c))
            dropPercentage := pyRound1 ((1 - recentRateOf now (msgsOf df c) / pr) * 100)
            daysSinceContact := ⌊now - listMax 0 ((msgsOf df c).map (fun m => m.t))⌋
            lastContact := listMax 0 ((msgsOf df c).map (fun m => m.t)) }
      else none := by
    simp only [fadingEntry, Nat.cast_ofNat]
    rw [if_neg (by simp [hpre1, hpre2]), if_neg (not_lt.mpr hmin),
      if_neg (not_lt.mpr hdays), if_neg (not_lt.mpr hmonths),
      if_neg (not_lt.mpr hactive), hprior]
  refine ⟨?_, ?_, ?_, ?_, ?_⟩
  · rw [hfe]
    by_cases hcond : 1 ≤ pr ∧ recentRateOf now (msgsOf df c) < pr * (3/10)
    · rw [if_pos hcond]
      simpa using hcond
    · rw [if_neg hcond]
      simpa using hcond
  · intro e he
    rw [hfe] at he
    split at he
    · cases Option.some_inj.mp he
      exact ⟨rfl, rfl, rfl⟩
    · exact absurd he (by simp)
  · have hp := pairwise_sortStable
      (fun a b : FadingEntry => decide (b.dropPercentage ≤ a.dropPercentage))
      (fun a b d hab hbd => by
        simp only [decide_eq_true_eq] at hab hbd ⊢
        exact le_trans hbd hab)
      (fun a b hab => by
        simp only [decide_eq_false_iff_not, not_le] at hab
        simp only [decide_eq_true_eq]
        exact hab.le)
      ((uniques (df.map (fun m => m.contact))).filterMap
        (fadingEntry monthOf now 100 365 df))
    rw [detect_fading_friendships]
    exact ((hp.sublist (List.take_sublist 10 _)).imp (fun h => by simpa using h))
  · rw [detect_fading_friendships]
    exact List.length_take_le 10 _
  · intro e he
    exact mem_detect_fading monthOf now 100 365 df e he

/-- The C1 witness contact "alice": the same fading shape as `dfFade7`
under a non-numeric name. -/
def dfFade : List Msg :=
  ((List.range 100).map (fun i => ⟨"alice", 300 + (i : ℚ), true, 2024, 0⟩))
  ++ [⟨"alice", 950, true, 2024, 0⟩]

set_option maxRecDepth 100000 in
/-- Witness for C1 at `dfFade` with `now = 1000`: all admission filters
pass with `prior_rate = 140/73 ≈ 1.9` and the fading test decides
membership. -/
theorem detect_fading_spec_witness :
    strStartsWith "urn:" "alice" = false
    ∧ strStartsWith "+" "alice" = false
    ∧ 100 ≤ (msgsOf dfFade "alice").length
    ∧ ⌊(1000 : ℚ) - listMax 0 ((msgsOf dfFade "alice").map (fun m => m.t))⌋ ≤ 365
    ∧ 3 ≤ (uniques ((msgsOf dfFade "alice").map (fun m => monthOf30 m.t))).length
    ∧ 30 ≤ ((msgsOf dfFade "alice").filter
        (fun m => decide ((1000 : ℚ) - 730 ≤ m.t))).length
    ∧ priorRateOf 1000 (msgsOf dfFade "alice") = some (140/73)
    ∧ ((fadingEntry monthOf30 1000 100 365 dfFade "alice").isSome = true ↔
        (1 ≤ (140/73 : ℚ)
          ∧ recentRateOf 1000 (msgsOf dfFade "alice") < (140/73 : ℚ) * (3/10))) :=
  ⟨by decide, by decide, by decide, by decide, by decide, by decide, by decide,
   (detect_fading_spec monthOf30 1000 dfFade "alice" (140/73)
      (by decide) (by decide) (by decide) (by decide) (by decide) (by decide)
      (by decide)).1⟩

/-! ## Claim C5 — the MIN_MESSAGES threshold -/

/-- A single message from one contact, far below the threshold. -/
def df5 : List Msg := [⟨"A", 0, true, 2020, 0⟩]

/-- Counterexample to C5: a contact with one message (below
`MIN_MESSAGES_FOR_TOP_CONTACT = 10`) still appears in the all-time and
per-year top-contact rankings — the threshold is not applied there. -/
theorem min_messages_not_applied_to_rankings :
    (get_top_contacts_alltime TOP_CONTACTS_COUNT df5).map (fun r => r.contact) = ["A"]
    ∧ (get_top_contacts_by_year 10 df5).map (fun p => p.1.contact) = ["A"]
    ∧ (msgsOf df5 "A").length < MIN_MESSAGES_FOR_TOP_CONTACT := by
  refine ⟨by decide, by decide, by decide⟩

/-- C5 (amended): the `MIN_MESSAGES_FOR_TOP_CONTACT` threshold is applied
by the lopsidedness ranking (every surviving row has at least that many
total messages), while raw totals such as yearly volume count every
message regardless of its contact's total; the all-time and per-year
top-contact rankings do not apply the threshold. -/
theorem min_messages_lopsidedness_only (df : List Msg) :
    (∀ r ∈ calculate_lopsidedness df, MIN_MESSAGES_FOR_TOP_CONTACT ≤ r.total)
    ∧ (∀ v ∈ get_yearly_volume df,
        v.total = (df.filter (fun m => decide (m.year = v.year))).length) := by
  constructor
  · intro r hr
    rw [calculate_lopsidedness, mem_sortStable] at hr
    have := (List.mem_filter.mp hr).2
    simpa using this
  · intro v hv
    rw [get_yearly_volume] at hv
    rcases List.mem_map.mp hv with ⟨y, -, rfl⟩
    rfl

/-- Witness for C5's amended statement at `dfLop` (10 sent messages in
2020 from contact "A"). -/
theorem min_messages_lopsidedness_only_witness :
    (lopsRow dfLop "A" ∈ calculate_lopsidedness dfLop
      ∧ MIN_MESSAGES_FOR_TOP_CONTACT ≤ (lopsRow dfLop "A").total)
    ∧ ((⟨2020, 10, 10, 0⟩ : YearVolume) ∈ get_yearly_volume dfLop
      ∧ (⟨2020, 10, 10, 0⟩ : YearVolume).total =
          (dfLop.filter (fun m =>
            decide (m.year = (⟨2020, 10, 10, 0⟩ : YearVolume).year))).length) :=
  ⟨⟨by decide, (min_messages_lopsidedness_only dfLop).1 _ (by decide)⟩,
   ⟨by decide, (min_messages_lopsidedness_only dfLop).2 _ (by decide)⟩⟩

/-! ## Claim C8 — phrase deduplication -/

theorem phraseIsBoring_of_sub (bp bw : List String) (accs : List String)
    (p : String) (h : is_substring_of_existing p accs = true) :
    phraseIsBoring bp bw accs p = true := by
  simp only [phraseIsBoring, h, Bool.or_true]

theorem phraseLoop_pairwise (bp bw : List String) (n : ℕ) (year : ℤ) :
    ∀ (cands : List (String × ℕ)) (acc : List YearPhrase),
      acc.Pairwise (fun a b =>
        isSubstr a.phrase b.phrase = false ∧ isSubstr b.phrase a.phrase = false) →
      (phraseLoop bp bw n year cands acc).Pairwise (fun a b =>
        isSubstr a.phrase b.phrase = false ∧ isSubstr b.phrase a.phrase = false) := by
  intro cands
  induction cands with
  | nil => intro acc h; exact h
  | cons pc rest ih =>
    rcases pc with ⟨p, cnt⟩
    intro acc hacc
    rw [phraseLoop]
    by_cases hb : phraseIsBoring bp bw (acc.map (fun e => e.phrase)) p = true
    · simp only [hb, if_true]
      split
      · exact hacc
      · exact ih acc hacc
    · rw [Bool.not_eq_true] at hb
      simp only [hb, Bool.false_eq_true, if_false]
      have hnew : (acc ++ [(⟨year, p, cnt⟩ : YearPhrase)]).Pairwise (fun a b =>
          isSubstr a.phrase b.phrase = false ∧ isSubstr b.phrase a.phrase = false) := by
        rw [List.pairwise_append]
        refine ⟨hacc, by simp, ?_⟩
        intro a ha b hb2
        rw [List.mem_singleton] at hb2
        subst hb2
        have hsub : is_substring_of_existing p (acc.map (fun e => e.phrase)) = false := by
          by_contra hcon
          rw [Bool.not_eq_false] at hcon
          rw [phraseIsBoring_of_sub bp bw _ p hcon] at hb
          simp at hb
        rw [is_substring_of_existing, List.any_eq_false] at hsub
        have h2 := hsub a.phrase (List.mem_map_of_mem _ ha)
        rw [Bool.not_eq_true, Bool.or_eq_false_iff] at h2
        exact ⟨h2.2, h2.1⟩
      split
      · exact hnew
      · exact ih _ hnew

theorem phraseLoop_length (bp bw : List String) (n : ℕ) (year : ℤ) :
    ∀ (cands : List (String × ℕ)) (acc : List YearPhrase),
      acc.length < n → (phraseLoop bp bw n year cands acc).length ≤ n := by
  intro cands
  induction cands with
  | nil => intro acc h; exact Nat.le_of_lt h
  | cons pc rest ih =>
    rcases pc with ⟨p, cnt⟩
    intro acc hacc
    rw [phraseLoop]
    by_cases hb : phraseIsBoring bp bw (acc.map (fun e => e.phrase)) p = true
    · simp only [hb, if_true]
      split
      · exact Nat.le_of_lt hacc
      · exact ih acc hacc
    · rw [Bool.not_eq_true] at hb
      simp only [hb, Bool.false_eq_true, if_false]
      split
      · rename_i hstop
        rw [List.length_append]
        exact Nat.succ_le_of_lt hacc
      · rename_i hstop
        exact ih _ (lt_of_not_le hstop)

/-- C8: in `get_top_phrases_by_year`, a candidate that is a substring or
superstring of an already-accepted phrase of the same year is rejected
(the accepted list is unchanged at that step); consequently no two output
phrases of a year stand in a substring relation; at most `n_phrases`
survivors are collected; and "happy new year everyone" and "new year" are
both rejected against an accepted "happy new year". -/
theorem get_top_phrases_dedup :
    (∀ (bp bw : List String) (n : ℕ) (year : ℤ) (p : String) (cnt : ℕ)
        (rest : List (String × ℕ)) (acc : List YearPhrase),
      is_substring_of_existing p (acc.map (fun e => e.phrase)) = true →
        phraseLoop bp bw n year ((p, cnt) :: rest) acc =
          if n ≤ acc.length then acc else phraseLoop bp bw n year rest acc)
    ∧ (∀ (bp bw : List String) (n : ℕ) (year : ℤ) (cands : List (String × ℕ)),
        (topPhrasesForYear bp bw n year cands).Pairwise (fun a b =>
          isSubstr a.phrase b.phrase = false ∧ isSubstr b.phrase a.phrase = false))
    ∧ (∀ (bp bw : List String) (n : ℕ) (year : ℤ) (cands : List (String × ℕ)),
        1 ≤ n → (topPhrasesForYear bp bw n year cands).length ≤ n)
    ∧ is_substring_of_existing "happy new year everyone" ["happy new year"] = true
    ∧ is_substring_of_existing "new year" ["happy new year"] = true := by
  refine ⟨?_, ?_, ?_, by decide, by decide⟩
  · intro bp bw n year p cnt rest acc h
    rw [phraseLoop]
    simp only [phraseIsBoring_of_sub bp bw _ p h, if_true]
  · intro bp bw n year cands
    exact phraseLoop_pairwise bp bw n year _ [] (List.Pairwise.nil)
  · intro bp bw n year cands hn
    exact phraseLoop_length bp bw n year _ [] hn

/-- Witness for C8: the candidate "new year" against an accepted
"happy new year" is rejected by the dedup step. -/
theorem get_top_phrases_dedup_witness :
    is_substring_of_existing "new year"
        ([(⟨2020, "happy new year", 5⟩ : YearPhrase)].map (fun e => e.phrase)) = true
    ∧ phraseLoop [] [] 20 2020 [("new year", 1)] [⟨2020, "happy new year", 5⟩] =
        (if 20 ≤ ([(⟨2020, "happy new year", 5⟩ : YearPhrase)]).length
         then [(⟨2020, "happy new year", 5⟩ : YearPhrase)]
         else phraseLoop [] [] 20 2020 [] [⟨2020, "happy new year", 5⟩]) :=
  ⟨by decide, get_top_phrases_dedup.1 [] [] 20 2020 "new year" 1 [] _ (by decide)⟩

/-! ## Claim C6 — longest streaks

The specification side: the decomposition of a date list into maximal runs
of consecutive dates, to be proved equal to the `new_streak`/`cumsum`/
`groupby` pipeline of the source. -/

/-- `runsAux p l`: the longest prefix of `l` continuing the run ending at
`p` by steps of exactly one day, and the remainder. -/
def runsAux (p : ℤ) : List ℤ → List ℤ × List ℤ
  | [] => ([], [])
  | d :: rest =>
    if d = p + 1 then (d :: (runsAux d rest).1, (runsAux d rest).2)
    else ([], d :: rest)

theorem runsAux_snd_length : ∀ (l : List ℤ) (p : ℤ),
    ((runsAux p l).2).length ≤ l.length := by
  intro l
  induction l with
  | nil => intro p; simp [runsAux]
  | cons d rest ih =>
    intro p
    rw [runsAux]
    split
    · exact Nat.le_succ_of_le (ih d)
    · exact Nat.le_refl _

/-- The decomposition of a date list into runs of consecutive dates. -/
def runs : List ℤ → List (List ℤ)
  | [] => []
  | d :: rest => (d :: (runsAux d rest).1) :: runs (runsAux d rest).2
termination_by l => l.length
decreasing_by
  exact Nat.lt_succ_of_le (runsAux_snd_length rest d)

/-- The runs with their 1-based positions attached to every element. -/
def numberRuns : ℕ → List (List ℤ) → List (ℤ × ℕ)
  | _, [] => []
  | i, r :: rs => r.map (fun d => (d, i)) ++ numberRuns (i + 1) rs

/-- Recursive form of the `new_streak` flags, carrying the shifted
predecessor explicitly. -/
def flagsRec : Option ℤ → List ℤ → List Bool
  | _, [] => []
  | none, d :: rest => true :: flagsRec (some d) rest
  | some p, d :: rest => decide (¬ d - p = 1) :: flagsRec (some d) rest

theorem zip_flags_eq_flagsRec :
    ∀ (l : List ℤ) (p0 : Option ℤ),
      (l.zip (p0 :: l.map some)).map (fun r =>
        match r.2 with
        | none => true
        | some p => decide (¬ r.1 - p = 1)) = flagsRec p0 l := by
  intro l
  induction l with
  | nil => intro p0; cases p0 <;> rfl
  | cons d rest ih =>
    intro p0
    cases p0 with
    | none =>
      simp only [List.zip_cons_cons, List.map_cons, flagsRec, ih]
    | some p =>
      simp only [List.zip_cons_cons, List.map_cons, flagsRec, ih]

theorem newStreakFlags_eq (ds : List ℤ) : newStreakFlags ds = flagsRec none ds := by
  rw [newStreakFlags, withPrev]
  exact zip_flags_eq_flagsRec ds none

theorem runsAux_append : ∀ (l : List ℤ) (p : ℤ),
    (runsAux p l).1 ++ (runsAux p l).2 = l := by
  intro l
  induction l with
  | nil => intro p; rfl
  | cons d rest ih =>
    intro p
    rw [runsAux]
    split
    · rw [List.cons_append, ih d]
    · rfl

theorem zipIds_split :
    ∀ (l : List ℤ) (p : ℤ) (acc : ℕ),
      l.zip (cumsumFlags acc (flagsRec (some p) l)) =
        (runsAux p l).1.map (fun d => (d, acc))
          ++ (runsAux p l).2.zip
              (cumsumFlags acc (flagsRec none (runsAux p l).2)) := by
  intro l
  induction l with
  | nil => intro p acc; rfl
  | cons d rest ih =>
    intro p acc
    by_cases hd : d = p + 1
    · have hflag : decide (¬ d - p = 1) = false := by
        subst hd; simp
      rw [flagsRec, hflag, cumsumFlags]
      simp only [Bool.false_eq_true, if_false, List.zip_cons_cons]
      rw [ih d acc, runsAux, if_pos hd]
      simp only [List.map_cons, List.cons_append]
    · have hflag : decide (¬ d - p = 1) = true := by
        simp only [decide_eq_true_eq]
        omega
      rw [flagsRec, hflag, cumsumFlags]
      simp only [if_true, List.zip_cons_cons]
      rw [runsAux, if_neg hd]
      simp only [List.map_nil, List.nil_append]
      rw [flagsRec, cumsumFlags]
      simp only [if_true, List.zip_cons_cons]

theorem zipIds_eq_numberRuns :
    ∀ (ds : List ℤ) (acc : ℕ),
      ds.zip (cumsumFlags acc (flagsRec none ds)) =
        numberRuns (acc + 1) (runs ds) := by
  intro ds
  induction ds using runs.induct with
  | case1 => intro acc; rw [runs]; rfl
  | case2 d rest ih =>
    intro acc
    rw [flagsRec, cumsumFlags]
    simp only [if_true, List.zip_cons_cons]
    rw [zipIds_split rest d (acc + 1), ih (acc + 1), runs, numberRuns]
    simp only [List.map_cons, List.cons_append]

theorem flagsRec_length : ∀ (l : List ℤ) (p0 : Option ℤ),
    (flagsRec p0 l).length = l.length := by
  intro l
  induction l with
  | nil => intro p0; cases p0 <;> rfl
  | cons d rest ih =>
    intro p0
    cases p0 with
    | none => rw [flagsRec, List.length_cons, List.length_cons, ih]
    | some p => rw [flagsRec, List.length_cons, List.length_cons, ih]

theorem cumsumFlags_length : ∀ (l : List Bool) (acc : ℕ),
    (cumsumFlags acc l).length = l.length := by
  intro l
  induction l with
  | nil => intro acc; rfl
  | cons b rest ih =>
    intro acc
    rw [cumsumFlags, List.length_cons, List.length_cons, ih]

theorem zip_map_snd : ∀ (l1 : List ℤ) (l2 : List ℕ), l1.length = l2.length →
    (l1.zip l2).map (fun p => p.2) = l2 := by
  intro l1
  induction l1 with
  | nil =>
    intro l2 h
    cases l2 with
    | nil => rfl
    | cons b t => exact absurd h (by simp)
  | cons a t1 ih =>
    intro l2 h
    cases l2 with
    | nil => exact absurd h (by simp)
    | cons b t2 =>
      rw [List.zip_cons_cons, List.map_cons, ih t2 (by simpa using h)]

theorem streakIds_eq (ds : List ℤ) :
    streakIds ds = (numberRuns 1 (runs ds)).map (fun p => p.2) := by
  have hlen : ds.length = (cumsumFlags 0 (flagsRec none ds)).length := by
    rw [cumsumFlags_length, flagsRec_length]
  have h := zip_map_snd ds (cumsumFlags 0 (flagsRec none ds)) hlen
  rw [zipIds_eq_numberRuns ds 0] at h
  rw [streakIds, newStreakFlags_eq, ← h]

theorem runs_ne_nil : ∀ (ds : List ℤ) (r : List ℤ), r ∈ runs ds → r ≠ [] := by
  intro ds
  induction ds using runs.induct with
  | case1 => intro r hr; rw [runs] at hr; exact absurd hr (by simp)
  | case2 d rest ih =>
    intro r hr
    rw [runs] at hr
    rcases List.mem_cons.mp hr with h | h
    · subst h; exact List.cons_ne_nil _ _
    · exact ih r h

theorem numberRuns_id_le : ∀ (rs : List (List ℤ)) (j : ℕ) (p : ℤ × ℕ),
    p ∈ numberRuns j rs → j ≤ p.2 := by
  intro rs
  induction rs with
  | nil => intro j p hp; exact absurd hp (by simp [numberRuns])
  | cons r rest ih =>
    intro j p hp
    rw [numberRuns] at hp
    rcases List.mem_append.mp hp with h | h
    · rcases List.mem_map.mp h with ⟨d, -, rfl⟩
      exact Nat.le_refl _
    · exact Nat.le_of_succ_le (ih (j + 1) p h)

theorem uniquesAux_replicate_mem {i : ℕ} :
    ∀ (n : ℕ) (l seen : List ℕ), i ∈ seen →
      uniquesAux seen (List.replicate n i ++ l) = uniquesAux seen l := by
  intro n
  induction n with
  | zero => intro l seen _; rfl
  | succ m ih =>
    intro l seen hmem
    rw [List.replicate_succ, List.cons_append, uniquesAux, if_pos hmem]
    exact ih l seen hmem

theorem map_pair_snd_replicate : ∀ (r : List ℤ) (j : ℕ),
    (r.map (fun d => (d, j))).map (fun p => p.2) = List.replicate r.length j := by
  intro r
  induction r with
  | nil => intro j; rfl
  | cons d t ih =>
    intro j
    simp only [List.map_cons, List.length_cons, List.replicate_succ, ih]

theorem uniques_numberRuns :
    ∀ (rs : List (List ℤ)) (j : ℕ) (seen : List ℕ),
      (∀ r ∈ rs, r ≠ []) → (∀ i ∈ seen, i < j) →
      uniquesAux seen ((numberRuns j rs).map (fun p => p.2)) =
        List.range' j rs.length := by
  intro rs
  induction rs with
  | nil => intro j seen _ _; rfl
  | cons r rest ih =>
    intro j seen hne hseen
    rw [numberRuns, List.map_append, map_pair_snd_replicate]
    have hj : j ∉ seen := fun hmem => lt_irrefl j (hseen j hmem)
    rcases List.exists_cons_of_ne_nil (hne r (List.mem_cons_self _ _)) with ⟨d, t, rfl⟩
    rw [List.length_cons, List.replicate_succ, List.cons_append, uniquesAux,
      if_neg hj, uniquesAux_replicate_mem t.length _ _ (List.mem_cons_self _ _)]
    rw [ih (j + 1) (j :: seen)
      (fun r2 hr2 => hne r2 (List.mem_cons_of_mem _ hr2))
      (fun i hi => by
        rcases List.mem_cons.mp hi with h | h
        · omega
        · exact Nat.lt_succ_of_lt (hseen i h))]
    rfl

theorem numberRuns_filter_map :
    ∀ (rs : List (List ℤ)) (j : ℕ),
      (List.range' j rs.length).map (fun i =>
        ((numberRuns j rs).filter (fun p => decide (p.2 = i))).map (fun p => p.1)) =
      rs := by
  intro rs
  induction rs with
  | nil => intro j; rfl
  | cons r rest ih =>
    intro j
    have hrange : List.range' j (r :: rest).length = j :: List.range' (j + 1) rest.length := by
      rw [List.length_cons]
      rfl
    rw [hrange, List.map_cons]
    have hhead : ((numberRuns j (r :: rest)).filter
        (fun p => decide (p.2 = j))).map (fun p => p.1) = r := by
      rw [numberRuns, List.filter_append]
      have h1 : (r.map (fun d => (d, j))).filter (fun p => decide (p.2 = j)) =
          r.map (fun d => (d, j)) := by
        rw [List.filter_eq_self]
        intro p hp
        rcases List.mem_map.mp hp with ⟨d, -, rfl⟩
        simp
      have h2 : (numberRuns (j + 1) rest).filter (fun p => decide (p.2 = j)) = [] := by
        rw [List.filter_eq_nil_iff]
        intro p hp
        have := numberRuns_id_le rest (j + 1) p hp
        simp only [decide_eq_true_eq]
        omega
      rw [h1, h2, List.append_nil, List.map_map]
      exact List.map_id _
    rw [hhead]
    have htail : (List.range' (j + 1) rest.length).map (fun i =>
        ((numberRuns j (r :: rest)).filter (fun p => decide (p.2 = i))).map
          (fun p => p.1)) =
        (List.range' (j + 1) rest.length).map (fun i =>
        ((numberRuns (j + 1) rest).filter (fun p => decide (p.2 = i))).map
          (fun p => p.1)) := by
      apply List.map_congr_left
      intro i hi
      have hge : j + 1 ≤ i := (List.mem_range'_1.mp hi).1
      rw [numberRuns, List.filter_append]
      have h1 : (r.map (fun d => (d, j))).filter (fun p => decide (p.2 = i)) = [] := by
        rw [List.filter_eq_nil_iff]
        intro p hp
        rcases List.mem_map.mp hp with ⟨d, -, rfl⟩
        simp only [decide_eq_true_eq]
        omega
      rw [h1, List.nil_append]
    rw [htail, ih (j + 1)]

/-- The source's `new_streak`/`cumsum`/`groupby` pipeline groups a date
list into exactly its maximal consecutive runs. -/
theorem streaksOf_eq_runs (ds : List ℤ) : streaksOf ds = runs ds := by
  have hzip : ds.zip (streakIds ds) = numberRuns 1 (runs ds) := by
    rw [streakIds, newStreakFlags_eq]
    exact zipIds_eq_numberRuns ds 0
  rw [streaksOf, hzip, streakIds_eq, uniques]
  rw [uniques_numberRuns (runs ds) 1 [] (runs_ne_nil ds) (by simp)]
  exact numberRuns_filter_map (runs ds) 1

theorem chain_runsAux : ∀ (l : List ℤ) (p : ℤ),
    List.Chain (fun a b => b = a + 1) p ((runsAux p l).1) := by
  intro l
  induction l with
  | nil => intro p; exact List.Chain.nil
  | cons d rest ih =>
    intro p
    rw [runsAux]
    split
    · rename_i hd
      exact List.Chain.cons hd (ih d)
    · exact List.Chain.nil

theorem runs_chain : ∀ (ds : List ℤ) (r : List ℤ), r ∈ runs ds →
    List.Chain' (fun a b => b = a + 1) r := by
  intro ds
  induction ds using runs.induct with
  | case1 => intro r hr; rw [runs] at hr; exact absurd hr (by simp)
  | case2 d rest ih =>
    intro r hr
    rw [runs] at hr
    rcases List.mem_cons.mp hr with h | h
    · subst h
      exact chain_runsAux rest d
    · exact ih r h

theorem chain_lowerBound : ∀ (l : List ℤ) (d : ℤ),
    List.Chain (fun a b => b = a + 1) d l → ∀ x ∈ l, d ≤ x := by
  intro l
  induction l with
  | nil => intro d _ x hx; exact absurd hx (by simp)
  | cons e t ih =>
    intro d hc x hx
    rcases List.chain_cons.mp hc with ⟨he, ht⟩
    rcases List.mem_cons.mp hx with h | h
    · subst h; omega
    · have := ih e ht x h
      omega

theorem foldl_min_of_le : ∀ (l : List ℤ) (a : ℤ),
    (∀ x ∈ l, a ≤ x) → l.foldl min a = a := by
  intro l
  induction l with
  | nil => intro a _; rfl
  | cons x t ih =>
    intro a h
    rw [List.foldl_cons, min_eq_left (h x (List.mem_cons_self _ _))]
    exact ih a (fun y hy => h y (List.mem_cons_of_mem _ hy))

theorem chain_listMin (l : List ℤ) (d : ℤ)
    (hc : List.Chain (fun a b => b = a + 1) d l) : listMin 0 (d :: l) = d := by
  rw [listMin]
  exact foldl_min_of_le l d (chain_lowerBound l d hc)

theorem chain_listMax : ∀ (l : List ℤ) (d : ℤ),
    List.Chain (fun a b => b = a + 1) d l →
      listMax 0 (d :: l) = d + l.length := by
  intro l
  induction l with
  | nil => intro d _; simp [listMax]
  | cons e t ih =>
    intro d hc
    rcases List.chain_cons.mp hc with ⟨he, ht⟩
    have h1 : listMax 0 (d :: e :: t) = listMax 0 (e :: t) := by
      rw [listMax, listMax, List.foldl_cons, max_eq_right (by omega : d ≤ e)]
    rw [h1, ih e ht, List.length_cons]
    push_cast
    omega

theorem runsAux_break : ∀ (l : List ℤ) (p : ℤ),
    List.Pairwise (· < ·) (p :: l) →
    ∀ (d2 : ℤ) (rest2 : List ℤ), (runsAux p l).2 = d2 :: rest2 →
      p + ((runsAux p l).1).length + 1 < d2 := by
  intro l
  induction l with
  | nil => intro p _ d2 rest2 h; exact absurd h (by simp [runsAux])
  | cons e r ih =>
    intro p hp d2 rest2 h
    have hpe : p < e := (List.pairwise_cons.mp hp).1 e (List.mem_cons_self _ _)
    have htail : List.Pairwise (· < ·) (e :: r) := (List.pairwise_cons.mp hp).2
    rw [runsAux] at h ⊢
    split at h
    · rename_i he
      have := ih e htail d2 rest2 h
      rw [if_pos he, List.length_cons]
      push_cast
      push_cast at this
      omega
    · rename_i he
      rw [if_neg he]
      rcases List.cons.injEq .. ▸ h with ⟨rfl, -⟩
      simp only [List.length_nil]
      omega

theorem runs_gapChain : ∀ (ds : List ℤ), List.Pairwise (· < ·) ds →
    List.Chain' (fun r1 r2 => listMax 0 r1 + 1 < listMin 0 r2) (runs ds) := by
  intro ds
  induction ds using runs.induct with
  | case1 => intro _; rw [runs]; trivial
  | case2 d rest ih =>
    intro hp
    have hrest : List.Pairwise (· < ·) rest := (List.pairwise_cons.mp hp).2
    have hq : List.Pairwise (· < ·) ((runsAux d rest).1 ++ (runsAux d rest).2) := by
      rw [runsAux_append]
      exact hrest
    have hq2 : List.Pairwise (· < ·) (runsAux d rest).2 :=
      (List.pairwise_append.mp hq).2.1
    have ihq := ih hq2
    rw [runs]
    show List.Chain _ (d :: (runsAux d rest).1) (runs (runsAux d rest).2)
    cases hq2runs : runs (runsAux d rest).2 with
    | nil => exact List.Chain.nil
    | cons r2 rs2 =>
      have hchain2 : List.Chain
          (fun r1 r2 => listMax 0 r1 + 1 < listMin 0 r2) r2 rs2 := by
        rw [hq2runs] at ihq
        exact ihq
      refine List.chain_cons.mpr ⟨?_, hchain2⟩
      cases hq2e : (runsAux d rest).2 with
      | nil => rw [hq2e, runs] at hq2runs; exact absurd hq2runs (by simp)
      | cons d2 rest2 =>
        rw [hq2e, runs] at hq2runs
        have hr2 : r2 = d2 :: (runsAux d2 rest2).1 :=
          ((List.cons.injEq .. ▸ hq2runs).1).symm
        rw [hr2, chain_listMin _ d2 (chain_runsAux rest2 d2),
          chain_listMax _ d (chain_runsAux rest d)]
        have := runsAux_break rest d hp d2 rest2 hq2e
        omega

theorem runs_flatten : ∀ (ds : List ℤ), (runs ds).flatten = ds := by
  intro ds
  induction ds using runs.induct with
  | case1 => rw [runs]; rfl
  | case2 d rest ih =>
    rw [runs, List.flatten_cons, ih, List.cons_append, runsAux_append]

theorem firstMaxBy_none {α : Type} (key : α → ℕ) :
    ∀ (l : List α), firstMaxBy key l = none → l = [] := by
  intro l
  cases l with
  | nil => intro _; rfl
  | cons a t =>
    intro h
    rw [firstMaxBy] at h
    split at h
    · exact absurd h (by simp)
    · split at h <;> exact absurd h (by simp)

theorem firstMaxBy_some {α : Type} (key : α → ℕ) :
    ∀ (l : List α) (x : α), firstMaxBy key l = some x →
      x ∈ l ∧ ∀ y ∈ l, key y ≤ key x := by
  intro l
  induction l with
  | nil => intro x h; exact absurd h (by simp [firstMaxBy])
  | cons a t ih =>
    intro x h
    rw [firstMaxBy] at h
    split at h
    · rename_i hnone
      cases Option.some_inj.mp h
      have ht : t = [] := firstMaxBy_none key t hnone
      subst ht
      refine ⟨List.mem_cons_self _ _, ?_⟩
      intro y hy
      rcases List.mem_cons.mp hy with h2 | h2
      · subst h2; exact Nat.le_refl _
      · exact absurd h2 (by simp)
    · rename_i y2 hsome
      rcases ih y2 hsome with ⟨hmem, hbound⟩
      split at h
      · rename_i hlt
        cases Option.some_inj.mp h
        refine ⟨List.mem_cons_of_mem _ hmem, ?_⟩
        intro y hy
        rcases List.mem_cons.mp hy with h2 | h2
        · subst h2; exact Nat.le_of_lt hlt
        · exact hbound y h2
      · rename_i hnlt
        cases Option.some_inj.mp h
        refine ⟨List.mem_cons_self _ _, ?_⟩
        intro y hy
        rcases List.mem_cons.mp hy with h2 | h2
        · subst h2; exact Nat.le_refl _
        · exact Nat.le_trans (hbound y h2) (Nat.le_of_not_lt hnlt)

theorem activeDates_sorted (df : List Msg) (c : String) :
    List.Pairwise (· < ·) (activeDates df c) := by
  have h1 := pairwise_sortStable (fun a b : ℤ => decide (a ≤ b))
    (fun a b d hab hbd => by
      simp only [decide_eq_true_eq] at hab hbd ⊢
      omega)
    (fun a b hab => by
      simp only [decide_eq_false_iff_not, not_le] at hab
      simp only [decide_eq_true_eq]
      omega)
    (uniques ((msgsOf df c).map (fun m => m.date)))
  have h2 : (activeDates df c).Nodup :=
    ((perm_sortStable _ _).nodup_iff).mpr
      (nodup_uniques ((msgsOf df c).map (fun m => m.date)))
  exact (h1.and h2).imp (fun hab =>
    lt_of_le_of_ne (by simpa using hab.1) hab.2)

theorem mem_activeDates (df : List Msg) (c : String) (d : ℤ) :
    d ∈ activeDates df c ↔ ∃ m ∈ df, m.contact = c ∧ m.date = d := by
  rw [activeDates, mem_sortStable, mem_uniques]
  constructor
  · intro h
    rcases List.mem_map.mp h with ⟨m, hm, rfl⟩
    rcases (mem_msgsOf df c m).mp hm with ⟨h1, h2⟩
    exact ⟨m, h1, h2, rfl⟩
  · rintro ⟨m, hm, hc, hd⟩
    exact List.mem_map.mpr ⟨m, (mem_msgsOf df c m).mpr ⟨hm, hc⟩, hd⟩

/-- C6 (amended): every row of `get_longest_streaks` reports, for its
contact, a maximal run of consecutive calendar dates each carrying at
least one message (either direction — the source does not restrict to
sent messages): the run's dates are exactly 1 day apart, its length is the
maximum over the contact's runs, the row's start/end dates delimit it, the
runsdecomposition covers exactly the contact's active dates, and
consecutive runs are separated by a gap strictly greater than 1 day. -/
theorem get_longest_streaks_spec (topN : ℕ) (df : List Msg) (e : StreakRow)
    (he : e ∈ get_longest_streaks topN df) :
    ∃ r ∈ runs (activeDates df e.contact),
      e.streakLength = r.length ∧ r ≠ []
      ∧ List.Chain' (fun a b => b = a + 1) r
      ∧ e.startDate = listMin 0 r ∧ e.endDate = listMax 0 r
      ∧ (∀ s ∈ runs (activeDates df e.contact), s.length ≤ r.length)
      ∧ (runs (activeDates df e.contact)).flatten = activeDates df e.contact
      ∧ List.Chain' (fun r1 r2 => listMax 0 r1 + 1 < listMin 0 r2)
          (runs (activeDates df e.contact))
      ∧ (∀ d : ℤ, d ∈ activeDates df e.contact ↔
          ∃ m ∈ df, m.contact = e.contact ∧ m.date = d) := by
  rw [get_longest_streaks] at he
  have he2 := (List.take_sublist topN _).subset he
  rw [mem_sortStable] at he2
  rcases List.mem_filterMap.mp he2 with ⟨c, -, hfm⟩
  rcases firstMaxBy_some _ _ e hfm with ⟨hmem, hbound⟩
  rw [contactStreaks] at hmem
  rcases List.mem_map.mp hmem with ⟨g, hg, hge⟩
  have hec : e.contact = c := by rw [← hge]
  subst hec
  rw [streaksOf_eq_runs] at hg
  refine ⟨g, hg, ?_, runs_ne_nil _ g hg, runs_chain _ g hg, ?_, ?_, ?_,
    runs_flatten _, runs_gapChain _ (activeDates_sorted df e.contact),
    mem_activeDates df e.contact⟩
  · rw [← hge]
  · rw [← hge]
  · rw [← hge]
  · intro s hs
    have hrow : (⟨e.contact, s.length, listMin 0 s, listMax 0 s⟩ : StreakRow) ∈
        contactStreaks df e.contact := by
      rw [contactStreaks, streaksOf_eq_runs]
      exact List.mem_map.mpr ⟨s, hs, rfl⟩
    have h2 := hbound _ hrow
    have hlen : e.streakLength = g.length := by rw [← hge]
    rw [hlen] at h2
    exact h2

/-- Two received-only messages on consecutive dates. -/
def df6 : List Msg := [⟨"A", 0, false, 2020, 0⟩, ⟨"A", 1, false, 2020, 1⟩]

/-- Counterexample to C6 as stated: `get_longest_streaks` reports a
2-day streak over dates on which the contact has **no sent message at
all** — the source groups all messages by date, not `is_from_me = 1`
ones. -/
theorem get_longest_streaks_counts_received_days :
    (get_longest_streaks 10 df6).map
        (fun e => (e.contact, e.streakLength, e.startDate, e.endDate)) =
      [("A", 2, 0, 1)]
    ∧ df6.all (fun m => !m.isFromMe) = true :=
  ⟨by decide, by decide⟩

/-- Witness for C6's amended statement at `dfLop` (ten messages on one
calendar date): the single run `[0]` is reported. -/
theorem get_longest_streaks_spec_witness :
    (⟨"A", 1, 0, 0⟩ : StreakRow) ∈ get_longest_streaks 10 dfLop
    ∧ ∃ r ∈ runs (activeDates dfLop (⟨"A", 1, 0, 0⟩ : StreakRow).contact),
        (⟨"A", 1, 0, 0⟩ : StreakRow).streakLength = r.length ∧ r ≠ []
        ∧ List.Chain' (fun a b => b = a + 1) r
        ∧ (⟨"A", 1, 0, 0⟩ : StreakRow).startDate = listMin 0 r
        ∧ (⟨"A", 1, 0, 0⟩ : StreakRow).endDate = listMax 0 r
        ∧ (∀ s ∈ runs (activeDates dfLop (⟨"A", 1, 0, 0⟩ : StreakRow).contact),
            s.length ≤ r.length)
        ∧ (runs (activeDates dfLop (⟨"A", 1, 0, 0⟩ : StreakRow).contact)).flatten =
            activeDates dfLop (⟨"A", 1, 0, 0⟩ : StreakRow).contact
        ∧ List.Chain' (fun r1 r2 => listMax 0 r1 + 1 < listMin 0 r2)
            (runs (activeDates dfLop (⟨"A", 1, 0, 0⟩ : StreakRow).contact))
        ∧ (∀ d : ℤ, d ∈ activeDates dfLop (⟨"A", 1, 0, 0⟩ : StreakRow).contact ↔
            ∃ m ∈ dfLop, m.contact = (⟨"A", 1, 0, 0⟩ : StreakRow).contact
              ∧ m.date = d) :=
  ⟨by decide, get_longest_streaks_spec 10 dfLop ⟨"A", 1, 0, 0⟩ (by decide)⟩

end IMessageWrapped
